import Mathlib

/-
Verification of the player-registry and whitelist core of
palworld-server-tool (src/service/player.go), as a shallow embedding.

The transactional bbolt store is modelled as an association list from
string keys to record values (a `Bucket`), iterated in list order the way
`bbolt.Bucket.ForEach` iterates in key order.  JSON (de)serialization is
modelled as the identity (the spec treats the encoding as an arbitrary
lossless structured encoding), `time.Parse(RFC3339, ...)` is an abstract
parameter `parse : String → Option Nat`, and `time.Now()` an abstract
parameter `now : Nat`.
-/

set_option autoImplicit false

namespace PalworldService

/-- Modelled from the spec: `database.Player` (package `internal/database`
is not under src/; field list from spec §3 PlayerRecord).  Session numbers
and level are modelled as integers, `last_online` as a `Nat` timestamp. -/
structure Player where
  PlayerUid : String
  SteamId : String
  Nickname : String
  Ip : String
  Ping : Int
  LocationX : Int
  LocationY : Int
  Level : Int
  LastOnline : Nat
  SaveLastOnline : String
  deriving Repr, DecidableEq

/-- Modelled from the spec: `database.OnlinePlayer` (package
`internal/database` is not under src/; field list from spec §3
OnlinePlayerSnapshot). -/
structure OnlinePlayer where
  PlayerUid : String
  SteamId : String
  Nickname : String
  Ip : String
  Ping : Int
  LocationX : Int
  LocationY : Int
  Level : Int
  deriving Repr, DecidableEq

/-- Modelled from the spec: `database.TersePlayer` (package
`internal/database` is not under src/; spec §3: identity + display fields,
excluding volatile session internals). -/
structure TersePlayer where
  PlayerUid : String
  SteamId : String
  Nickname : String
  Level : Int
  LastOnline : Nat
  deriving Repr, DecidableEq

/-- Projection of a stored `Player` to its terse listing view; stands for
unmarshalling the stored bytes into `database.TersePlayer`. -/
def toTerse (p : Player) : TersePlayer :=
  { PlayerUid := p.PlayerUid, SteamId := p.SteamId, Nickname := p.Nickname,
    Level := p.Level, LastOnline := p.LastOnline }

/-- Modelled from the spec: `database.PlayerW` (package `internal/database`
is not under src/; field list from spec §3 WhitelistEntry). -/
structure PlayerW where
  Name : String
  SteamID : String
  PlayerUID : String
  deriving Repr, DecidableEq

/-- Error kinds surfaced by the service layer (`ErrNoRecord`, and the
whitelist errors `"player not found in whitelist"` /
`"whitelist bucket does not exist"`). -/
inductive DbErr where
  | notFound
  | bucketMissing
  deriving Repr, DecidableEq

/-- A bbolt bucket: keys to values, in iteration (key) order. -/
abbrev Bucket (α : Type) : Type := List (String × α)

/-- The keys of a bucket, in iteration order. -/
def bucketKeys {α : Type} : Bucket α → List String
  | [] => []
  | (k, _) :: rest => k :: bucketKeys rest

/-- `bbolt.Bucket.Get`: value stored at a key. -/
def bucketGet {α : Type} : Bucket α → String → Option α
  | [], _ => none
  | (k', v) :: rest, k => if k' = k then some v else bucketGet rest k

/-- `bbolt.Bucket.Put`: overwrite the value at a key, or append the pair. -/
def bucketPut {α : Type} : Bucket α → String → α → Bucket α
  | [], k, v => [(k, v)]
  | (k', v') :: rest, k, v =>
      if k' = k then (k, v) :: rest else (k', v') :: bucketPut rest k v

/-- `bbolt.Bucket.Delete`: remove the pair stored at a key. -/
def bucketDelete {α : Type} : Bucket α → String → Bucket α
  | [], _ => []
  | (k', v') :: rest, k =>
      if k' = k then bucketDelete rest k else (k', v') :: bucketDelete rest k

/-- Boolean test that `pat` occurs starting at some position of `l`
(helper for `strContains`). -/
def containsFrom (pat : List Char) : List Char → Bool
  | [] => pat.isPrefixOf ([] : List Char)
  | c :: rest => pat.isPrefixOf (c :: rest) || containsFrom pat rest

/-- `strings.Contains s pat`. -/
def strContains (s pat : String) : Bool :=
  containsFrom pat.toList s.toList

/-- The `existingPlayers` map of `PutPlayers`: all stored values indexed by
the value's `PlayerUid` (a later entry in iteration order overwrites an
earlier one in the Go map, hence the lookup from the reversed list). -/
def existingByUid (db : Bucket Player) (uid : String) : Option Player :=
  (db.map Prod.snd).reverse.find? (fun q => q.PlayerUid == uid)

/-- The merge step of `PutPlayers` for one incoming snapshot `p`:
carry forward `SteamId` when the incoming one is empty, always carry
forward `Ip`, `Ping`, `LocationX`, `LocationY` from the existing record,
then parse `SaveLastOnline` into `LastOnline` when possible. -/
def mergedRecord (parse : String → Option Nat) (db : Bucket Player) (p : Player) : Player :=
  let p1 :=
    match existingByUid db p.PlayerUid with
    | some existingPlayer =>
        let pa := if p.SteamId = "" then { p with SteamId := existingPlayer.SteamId } else p
        { pa with Ip := existingPlayer.Ip, Ping := existingPlayer.Ping,
                  LocationX := existingPlayer.LocationX, LocationY := existingPlayer.LocationY }
    | none => p
  if p1.SaveLastOnline ≠ "" then
    match parse p1.SaveLastOnline with
    | some parsedTime => { p1 with LastOnline := parsedTime }
    | none => p1
  else p1

/-- The first loop of `PutPlayers`: put every merged incoming record under
its `PlayerUid` key.  `db0` is the pre-transaction bucket the existing-map
was read from. -/
def putAll (parse : String → Option Nat) (db0 : Bucket Player) :
    List Player → Bucket Player → Bucket Player
  | [], b => b
  | p :: rest, b =>
      putAll parse db0 rest
        (bucketPut b (mergedRecord parse db0 p).PlayerUid (mergedRecord parse db0 p))

/-- The second loop of `PutPlayers`: delete every previously stored uid
that does not occur among the incoming uids. -/
def deleteStale (newUids : List String) : List String → Bucket Player → Bucket Player
  | [], b => b
  | uid :: rest, b =>
      if newUids.contains uid then deleteStale newUids rest b
      else deleteStale newUids rest (bucketDelete b uid)

/-- `PutPlayers` (ReplaceRoster): read all existing records, write every
merged incoming record, then delete every stale previously stored uid. -/
def putPlayers (parse : String → Option Nat) (db : Bucket Player) (players : List Player) :
    Bucket Player :=
  deleteStale (players.map Player.PlayerUid) (db.map (fun kv => kv.2.PlayerUid))
    (putAll parse db players db)

/-- The per-snapshot record computed by `PutPlayersOnline`: a fresh minimal
record when the uid is unknown, otherwise the stored record with the
steam id upgraded when it is empty or contains the `"000000"` placeholder
run; session fields, level and `LastOnline` always come from the snapshot. -/
def onlineMerged (now : Nat) (b : Bucket Player) (p : OnlinePlayer) : Player :=
  let player : Player :=
    match bucketGet b p.PlayerUid with
    | none =>
        { PlayerUid := p.PlayerUid, SteamId := p.SteamId, Nickname := p.Nickname,
          Ip := "", Ping := 0, LocationX := 0, LocationY := 0, Level := 0,
          LastOnline := 0, SaveLastOnline := "" }
    | some existing =>
        if existing.SteamId = "" ∨ strContains existing.SteamId "000000" = true then
          { existing with SteamId := p.SteamId }
        else existing
  { player with Ip := p.Ip, Ping := p.Ping, LocationX := p.LocationX,
                LocationY := p.LocationY, Level := p.Level, LastOnline := now }

/-- The loop of `PutPlayersOnline` over the snapshot batch. -/
def putOnlineAll (now : Nat) : List OnlinePlayer → Bucket Player → Bucket Player
  | [], b => b
  | p :: rest, b => putOnlineAll now rest (bucketPut b p.PlayerUid (onlineMerged now b p))

/-- `PutPlayersOnline` (ApplyOnlineSnapshot). -/
def putPlayersOnline (now : Nat) (db : Bucket Player) (ps : List OnlinePlayer) : Bucket Player :=
  putOnlineAll now ps db

/-- `ListPlayers`: every stored record whose key does not contain
`"000000"`, projected to the terse view, in iteration order. -/
def listPlayers : Bucket Player → List TersePlayer
  | [] => []
  | (k, p) :: rest =>
      if strContains k "000000" = true then listPlayers rest
      else toTerse p :: listPlayers rest

/-- `GetPlayer`: exact-key lookup, `ErrNoRecord` when absent. -/
def getPlayer (db : Bucket Player) (playerUid : String) : Except DbErr Player :=
  match bucketGet db playerUid with
  | none => Except.error DbErr.notFound
  | some p => Except.ok p

/-- `matchesCriteria`: the whitelist identity rule — a non-empty field of
the queried `player` that equals the stored entry's field makes a match,
checked for `PlayerUID`, then `Name`, then `SteamID`. -/
def matchesCriteria (existingPlayer player : PlayerW) : Bool :=
  if player.PlayerUID ≠ "" ∧ existingPlayer.PlayerUID = player.PlayerUID then true
  else if player.Name ≠ "" ∧ existingPlayer.Name = player.Name then true
  else if player.SteamID ≠ "" ∧ existingPlayer.SteamID = player.SteamID then true
  else false

/-- `findPlayerKey`: key of the first stored entry matching `player`
under `matchesCriteria`, in iteration order. -/
def findPlayerKey : Bucket PlayerW → PlayerW → Option String
  | [], _ => none
  | (k, v) :: rest, player =>
      if matchesCriteria v player = true then some k else findPlayerKey rest player

/-- `AddWhitelist`: create the bucket when missing, then update the first
matching entry in place, or insert under the composite
`Name|SteamID|PlayerUID` key. -/
def addWhitelist (db : Option (Bucket PlayerW)) (player : PlayerW) : Bucket PlayerW :=
  let b := db.getD []
  match findPlayerKey b player with
  | some key => bucketPut b key player
  | none =>
      bucketPut b (player.Name ++ "|" ++ player.SteamID ++ "|" ++ player.PlayerUID) player

/-- `ListWhitelist`: all stored entries; empty (and no error) when the
bucket has never been created. -/
def listWhitelist (db : Option (Bucket PlayerW)) : List PlayerW :=
  match db with
  | none => []
  | some b => b.map Prod.snd

/-- `RemoveWhitelist`: `bucketMissing` when the bucket has never been
created, `notFound` when no stored entry matches, otherwise delete the
first matching entry. -/
def removeWhitelist (db : Option (Bucket PlayerW)) (player : PlayerW) :
    Except DbErr (Bucket PlayerW) :=
  match db with
  | none => Except.error DbErr.bucketMissing
  | some b =>
      match findPlayerKey b player with
      | none => Except.error DbErr.notFound
      | some key => Except.ok (bucketDelete b key)

/-- The storage key chosen by `PutWhitelist` for one entry: `PlayerUID`
when non-empty, else `SteamID` when non-empty, else none (skipped). -/
def whitelistKey (player : PlayerW) : Option String :=
  if player.PlayerUID ≠ "" then some player.PlayerUID
  else if player.SteamID ≠ "" then some player.SteamID
  else none

/-- The insertion loop of `PutWhitelist` over the cleared bucket. -/
def putWhitelistAll : List PlayerW → Bucket PlayerW → Bucket PlayerW
  | [], b => b
  | player :: rest, b =>
      match whitelistKey player with
      | some identifier => putWhitelistAll rest (bucketPut b identifier player)
      | none => putWhitelistAll rest b

/-- `PutWhitelist` (ReplaceWhitelist): clear every existing entry, then
insert each given entry under its chosen identifier key. -/
def putWhitelist (db : Option (Bucket PlayerW)) (players : List PlayerW) : Bucket PlayerW :=
  putWhitelistAll players []

/-- State of an in-flight `bbolt` write transaction: the bucket as modified
so far, plus fuel modelling how many further store mutations succeed before
the storage collaborator reports a failure. -/
structure TxState where
  bucket : Bucket Player
  fuel : Nat
  deriving Repr, DecidableEq

/-- A `Put` inside the transaction: fails when the fuel is exhausted. -/
def txPut (st : TxState) (k : String) (p : Player) : Except Unit TxState :=
  match st.fuel with
  | 0 => Except.error ()
  | Nat.succ n => Except.ok ⟨bucketPut st.bucket k p, n⟩

/-- A `Delete` inside the transaction: fails when the fuel is exhausted. -/
def txDelete (st : TxState) (k : String) : Except Unit TxState :=
  match st.fuel with
  | 0 => Except.error ()
  | Nat.succ n => Except.ok ⟨bucketDelete st.bucket k, n⟩

/-- The write loop of `PutPlayers` run inside the fallible transaction. -/
def txPutAll (parse : String → Option Nat) (db0 : Bucket Player) :
    List Player → TxState → Except Unit TxState
  | [], st => Except.ok st
  | p :: rest, st =>
      match txPut st (mergedRecord parse db0 p).PlayerUid (mergedRecord parse db0 p) with
      | Except.error e => Except.error e
      | Except.ok st' => txPutAll parse db0 rest st'

/-- The stale-deletion loop of `PutPlayers` run inside the fallible
transaction. -/
def txDeleteStale (newUids : List String) :
    List String → TxState → Except Unit TxState
  | [], st => Except.ok st
  | uid :: rest, st =>
      if newUids.contains uid then txDeleteStale newUids rest st
      else
        match txDelete st uid with
        | Except.error e => Except.error e
        | Except.ok st' => txDeleteStale newUids rest st'

/-- The whole body of the `db.Update` closure of `PutPlayers`, run against
a fallible transaction state. -/
def putPlayersBody (parse : String → Option Nat) (ps : List Player) (st0 : TxState) :
    Except Unit TxState :=
  match txPutAll parse st0.bucket ps st0 with
  | Except.error e => Except.error e
  | Except.ok st1 =>
      txDeleteStale (ps.map Player.PlayerUid)
        (st0.bucket.map (fun kv => kv.2.PlayerUid)) st1

/-- `PutPlayers` under `db.Update` transaction semantics: when the body
fails at any point the transaction is rolled back and the pre-call bucket
remains the visible state. -/
def putPlayersAtomic (parse : String → Option Nat) (fuel : Nat) (db : Bucket Player)
    (ps : List Player) : Bucket Player :=
  match putPlayersBody parse ps ⟨db, fuel⟩ with
  | Except.ok st => st.bucket
  | Except.error _ => db

/-! ### Bucket lemmas -/

theorem bucketGet_put_self {α : Type} (b : Bucket α) (k : String) (v : α) :
    bucketGet (bucketPut b k v) k = some v := by
  induction b with
  | nil => simp [bucketPut, bucketGet]
  | cons kv rest ih =>
      obtain ⟨k', v'⟩ := kv
      by_cases h : k' = k
      · simp [bucketPut, h, bucketGet]
      · simp [bucketPut, h, bucketGet, ih]

theorem bucketGet_put_other {α : Type} (b : Bucket α) (k k' : String) (v : α)
    (hne : k' ≠ k) : bucketGet (bucketPut b k v) k' = bucketGet b k' := by
  induction b with
  | nil => simp [bucketPut, bucketGet, Ne.symm hne]
  | cons kv rest ih =>
      obtain ⟨k0, v0⟩ := kv
      by_cases h : k0 = k
      · simp [bucketPut, h, bucketGet, Ne.symm hne]
      · by_cases h' : k0 = k'
        · simp [bucketPut, h, bucketGet, h', hne]
        · simp [bucketPut, h, bucketGet, h', ih]

theorem bucketGet_delete {α : Type} (b : Bucket α) (k k' : String) :
    bucketGet (bucketDelete b k) k' = if k' = k then none else bucketGet b k' := by
  induction b with
  | nil => simp [bucketDelete, bucketGet]
  | cons kv rest ih =>
      obtain ⟨k0, v0⟩ := kv
      by_cases h : k0 = k
      · subst h
        by_cases h' : k' = k0
        · subst h'
          simp only [bucketDelete, if_pos rfl]
          simpa using ih
        · simp [bucketDelete, bucketGet, h', Ne.symm h', ih]
      · by_cases h' : k' = k0
        · subst h'
          simp [bucketDelete, bucketGet, h, fun e => h (Eq.symm e)]
        · simp [bucketDelete, bucketGet, h, Ne.symm h', ih]

theorem mem_bucketKeys_iff_isSome {α : Type} (b : Bucket α) (k : String) :
    k ∈ bucketKeys b ↔ (bucketGet b k).isSome := by
  induction b with
  | nil => simp [bucketKeys, bucketGet]
  | cons kv rest ih =>
      obtain ⟨k0, v0⟩ := kv
      by_cases h : k0 = k
      · simp [bucketKeys, bucketGet, h]
      · simp [bucketKeys, bucketGet, h, Ne.symm h, ih]

theorem mem_bucketKeys_put {α : Type} (b : Bucket α) (k k' : String) (v : α) :
    k' ∈ bucketKeys (bucketPut b k v) ↔ k' = k ∨ k' ∈ bucketKeys b := by
  by_cases h : k' = k
  · subst h
    simp [mem_bucketKeys_iff_isSome, bucketGet_put_self]
  · simp [mem_bucketKeys_iff_isSome, bucketGet_put_other b k k' v h, h]

theorem bucketKeys_put_of_mem {α : Type} (b : Bucket α) (k : String) (v : α)
    (hmem : k ∈ bucketKeys b) : bucketKeys (bucketPut b k v) = bucketKeys b := by
  induction b with
  | nil => simp [bucketKeys] at hmem
  | cons kv rest ih =>
      obtain ⟨k0, v0⟩ := kv
      by_cases h : k0 = k
      · simp [bucketPut, h, bucketKeys]
      · have hmem' : k ∈ bucketKeys rest := by
          rcases (by simpa [bucketKeys] using hmem : k = k0 ∨ k ∈ bucketKeys rest) with h1 | h1
          · exact absurd h1.symm h
          · exact h1
        simp [bucketPut, h, bucketKeys, ih hmem']

theorem mem_of_mem_bucketPut {α : Type} (b : Bucket α) (k : String) (v : α)
    (x : String × α) (hx : x ∈ bucketPut b k v) : x = (k, v) ∨ x ∈ b := by
  induction b with
  | nil => simpa [bucketPut] using hx
  | cons kv rest ih =>
      obtain ⟨k0, v0⟩ := kv
      by_cases h : k0 = k
      · simp [bucketPut, h] at hx
        rcases hx with hx | hx
        · exact Or.inl (by simp [hx])
        · exact Or.inr (by simp [hx])
      · simp [bucketPut, h] at hx
        rcases hx with hx | hx
        · exact Or.inr (by simp [hx])
        · rcases ih hx with h1 | h1
          · exact Or.inl h1
          · exact Or.inr (by simp [h1])

theorem mem_bucketKeys_delete {α : Type} (b : Bucket α) (k k' : String) :
    k' ∈ bucketKeys (bucketDelete b k) ↔ k' ∈ bucketKeys b ∧ k' ≠ k := by
  by_cases h : k' = k
  · simp [mem_bucketKeys_iff_isSome, bucketGet_delete, h]
  · simp [mem_bucketKeys_iff_isSome, bucketGet_delete, h]

/-! ### PutPlayers lemmas -/

theorem mergedRecord_PlayerUid (parse : String → Option Nat) (db : Bucket Player)
    (p : Player) : (mergedRecord parse db p).PlayerUid = p.PlayerUid := by
  unfold mergedRecord
  cases hx : existingByUid db p.PlayerUid <;> dsimp only <;> (repeat' split) <;> rfl

theorem putAll_get_not_mem (parse : String → Option Nat) (db0 : Bucket Player)
    (ps : List Player) (b : Bucket Player) (k : String)
    (h : k ∉ ps.map Player.PlayerUid) :
    bucketGet (putAll parse db0 ps b) k = bucketGet b k := by
  induction ps generalizing b with
  | nil => rfl
  | cons p rest ih =>
      simp only [List.map_cons, List.mem_cons, not_or] at h
      rw [putAll, ih _ h.2]
      exact bucketGet_put_other _ _ _ _ (by rw [mergedRecord_PlayerUid]; exact h.1)

theorem mem_bucketKeys_putAll (parse : String → Option Nat) (db0 : Bucket Player)
    (ps : List Player) (b : Bucket Player) (k : String) :
    k ∈ bucketKeys (putAll parse db0 ps b) ↔
      k ∈ ps.map Player.PlayerUid ∨ k ∈ bucketKeys b := by
  induction ps generalizing b with
  | nil => simp [putAll]
  | cons p rest ih =>
      rw [putAll, ih, mem_bucketKeys_put, mergedRecord_PlayerUid]
      simp only [List.map_cons, List.mem_cons]
      tauto

theorem putAll_get_of_nodup (parse : String → Option Nat) (db0 : Bucket Player)
    (ps : List Player) (b : Bucket Player) (p : Player)
    (hnd : (ps.map Player.PlayerUid).Nodup) (hp : p ∈ ps) :
    bucketGet (putAll parse db0 ps b) p.PlayerUid = some (mergedRecord parse db0 p) := by
  induction ps generalizing b with
  | nil => cases hp
  | cons q rest ih =>
      rw [List.map_cons, List.nodup_cons] at hnd
      rcases List.mem_cons.mp hp with h | h
      · subst h
        rw [putAll, putAll_get_not_mem _ _ _ _ _ hnd.1]
        rw [mergedRecord_PlayerUid]
        exact bucketGet_put_self _ _ _
      · rw [putAll]
        exact ih _ hnd.2 h

theorem bucketGet_deleteStale (newUids olds : List String) (b : Bucket Player)
    (k : String) :
    bucketGet (deleteStale newUids olds b) k =
      if k ∈ olds ∧ k ∉ newUids then none else bucketGet b k := by
  induction olds generalizing b with
  | nil => simp [deleteStale]
  | cons uid rest ih =>
      by_cases hc : uid ∈ newUids
      · rw [deleteStale, if_pos (by simpa using hc), ih]
        by_cases hkn : k ∈ newUids
        · simp [hkn]
        · have hku : k ≠ uid := fun e => hkn (e ▸ hc)
          simp [hkn, List.mem_cons, hku]
      · rw [deleteStale, if_neg (by simpa using hc), ih, bucketGet_delete]
        by_cases hku : k = uid
        · subst hku
          simp [hc]
        · simp [List.mem_cons, hku]

theorem mem_bucketKeys_deleteStale (newUids olds : List String) (b : Bucket Player)
    (k : String) :
    k ∈ bucketKeys (deleteStale newUids olds b) ↔
      k ∈ bucketKeys b ∧ ¬(k ∈ olds ∧ k ∉ newUids) := by
  rw [mem_bucketKeys_iff_isSome, mem_bucketKeys_iff_isSome, bucketGet_deleteStale]
  by_cases h : k ∈ olds ∧ k ∉ newUids
  · simp [h]
  · simp [h]

/-! ### PutPlayersOnline lemmas -/

theorem putOnlineAll_get_not_mem (now : Nat) (ps : List OnlinePlayer)
    (b : Bucket Player) (k : String) (h : k ∉ ps.map OnlinePlayer.PlayerUid) :
    bucketGet (putOnlineAll now ps b) k = bucketGet b k := by
  induction ps generalizing b with
  | nil => rfl
  | cons p rest ih =>
      simp only [List.map_cons, List.mem_cons, not_or] at h
      rw [putOnlineAll, ih _ h.2]
      exact bucketGet_put_other _ _ _ _ h.1

theorem putOnlineAll_isSome (now : Nat) (ps : List OnlinePlayer)
    (b : Bucket Player) (k : String) (h : (bucketGet b k).isSome) :
    (bucketGet (putOnlineAll now ps b) k).isSome := by
  induction ps generalizing b with
  | nil => exact h
  | cons p rest ih =>
      rw [putOnlineAll]
      apply ih
      by_cases hk : k = p.PlayerUid
      · subst hk
        rw [bucketGet_put_self]
        rfl
      · rwa [bucketGet_put_other _ _ _ _ hk]

/-! ### Whitelist lemmas -/

theorem findPlayerKey_eq_none_iff (b : Bucket PlayerW) (p : PlayerW) :
    findPlayerKey b p = none ↔ ∀ kv ∈ b, matchesCriteria kv.2 p = false := by
  induction b with
  | nil => simp [findPlayerKey]
  | cons kv rest ih =>
      obtain ⟨k, v⟩ := kv
      by_cases h : matchesCriteria v p = true
      · simp [findPlayerKey, h]
      · simp only [Bool.not_eq_true] at h
        simp [findPlayerKey, h, ih]

theorem findPlayerKey_some (b : Bucket PlayerW) (p : PlayerW) (k : String)
    (h : findPlayerKey b p = some k) :
    ∃ v, (k, v) ∈ b ∧ matchesCriteria v p = true := by
  induction b with
  | nil => simp [findPlayerKey] at h
  | cons kv rest ih =>
      obtain ⟨k0, v0⟩ := kv
      by_cases hm : matchesCriteria v0 p = true
      · rw [findPlayerKey, if_pos hm, Option.some_inj] at h
        exact ⟨v0, by simp [← h], hm⟩
      · rw [findPlayerKey, if_neg hm] at h
        obtain ⟨v, hv, hmv⟩ := ih h
        exact ⟨v, by simp [hv], hmv⟩

theorem mem_putWhitelistAll_elim (ps : List PlayerW) (b : Bucket PlayerW)
    (x : String × PlayerW) (hx : x ∈ putWhitelistAll ps b) :
    x ∈ b ∨ ∃ p ∈ ps, x.2 = p ∧ whitelistKey p = some x.1 := by
  induction ps generalizing b with
  | nil => exact Or.inl hx
  | cons p rest ih =>
      rw [putWhitelistAll] at hx
      cases hw : whitelistKey p with
      | none =>
          rw [hw] at hx
          rcases ih _ hx with h1 | ⟨q, hq, h2⟩
          · exact Or.inl h1
          · exact Or.inr ⟨q, List.mem_cons_of_mem _ hq, h2⟩
      | some i =>
          rw [hw] at hx
          rcases ih _ hx with h1 | ⟨q, hq, h2⟩
          · rcases mem_of_mem_bucketPut _ _ _ _ h1 with h2 | h2
            · refine Or.inr ⟨p, List.mem_cons_self _ _, ?_, ?_⟩
              · rw [h2]
              · rw [h2, hw]
            · exact Or.inl h2
          · exact Or.inr ⟨q, List.mem_cons_of_mem _ hq, h2⟩

theorem mem_bucketKeys_putWhitelistAll (ps : List PlayerW) (b : Bucket PlayerW)
    (k : String) :
    k ∈ bucketKeys (putWhitelistAll ps b) ↔
      (∃ p ∈ ps, whitelistKey p = some k) ∨ k ∈ bucketKeys b := by
  induction ps generalizing b with
  | nil => simp [putWhitelistAll]
  | cons p rest ih =>
      rw [putWhitelistAll]
      cases hw : whitelistKey p with
      | none =>
          rw [ih]
          constructor
          · rintro (⟨q, hq, h2⟩ | h1)
            · exact Or.inl ⟨q, List.mem_cons_of_mem _ hq, h2⟩
            · exact Or.inr h1
          · rintro (⟨q, hq, h2⟩ | h1)
            · rcases List.mem_cons.mp hq with hq | hq
              · rw [hq] at h2
                rw [hw] at h2
                cases h2
              · exact Or.inl ⟨q, hq, h2⟩
            · exact Or.inr h1
      | some i =>
          rw [ih, mem_bucketKeys_put]
          constructor
          · rintro (⟨q, hq, h2⟩ | hk | h1)
            · exact Or.inl ⟨q, List.mem_cons_of_mem _ hq, h2⟩
            · exact Or.inl ⟨p, List.mem_cons_self _ _, by rw [hw, hk]⟩
            · exact Or.inr h1
          · rintro (⟨q, hq, h2⟩ | h1)
            · rcases List.mem_cons.mp hq with hq | hq
              · rw [hq] at h2
                rw [hw] at h2
                exact Or.inr (Or.inl (by cases h2; rfl))
              · exact Or.inl ⟨q, hq, h2⟩
            · exact Or.inr (Or.inr h1)

/-! ### Further helper lemmas -/

theorem mem_bucketKeys_of_mem {α : Type} (b : Bucket α) (k : String) (v : α)
    (h : (k, v) ∈ b) : k ∈ bucketKeys b := by
  induction b with
  | nil => cases h
  | cons kv rest ih =>
      obtain ⟨k0, v0⟩ := kv
      rcases List.mem_cons.mp h with h1 | h1
      · rw [bucketKeys]
        cases h1
        exact List.mem_cons_self _ _
      · rw [bucketKeys]
        exact List.mem_cons_of_mem _ (ih h1)

theorem bucketKeys_eq_uidMap (db : Bucket Player)
    (hkey : ∀ kv ∈ db, kv.1 = kv.2.PlayerUid) :
    db.map (fun kv => kv.2.PlayerUid) = bucketKeys db := by
  induction db with
  | nil => rfl
  | cons kv rest ih =>
      obtain ⟨k0, v0⟩ := kv
      simp only [List.map_cons]
      rw [bucketKeys]
      congr 1
      · exact (hkey (k0, v0) (List.mem_cons_self _ _)).symm
      · exact ih (fun kv h => hkey kv (List.mem_cons_of_mem _ h))

theorem listPlayers_sound (db : Bucket Player) (t : TersePlayer)
    (ht : t ∈ listPlayers db) :
    ∃ kv, kv ∈ db ∧ strContains kv.1 "000000" = false ∧ t = toTerse kv.2 := by
  induction db with
  | nil => cases ht
  | cons kv rest ih =>
      obtain ⟨k0, p0⟩ := kv
      by_cases h : strContains k0 "000000" = true
      · rw [listPlayers, if_pos h] at ht
        obtain ⟨kv', h1, h2, h3⟩ := ih ht
        exact ⟨kv', List.mem_cons_of_mem _ h1, h2, h3⟩
      · rw [listPlayers, if_neg h] at ht
        rcases List.mem_cons.mp ht with h1 | h1
        · exact ⟨(k0, p0), List.mem_cons_self _ _, by simpa using h, h1⟩
        · obtain ⟨kv', h2, h3, h4⟩ := ih h1
          exact ⟨kv', List.mem_cons_of_mem _ h2, h3, h4⟩

theorem mergedRecord_fields (parse : String → Option Nat) (db : Bucket Player)
    (p existing : Player) (hex : existingByUid db p.PlayerUid = some existing) :
    (mergedRecord parse db p).Ip = existing.Ip ∧
    (mergedRecord parse db p).Ping = existing.Ping ∧
    (mergedRecord parse db p).LocationX = existing.LocationX ∧
    (mergedRecord parse db p).LocationY = existing.LocationY ∧
    (mergedRecord parse db p).Nickname = p.Nickname ∧
    (mergedRecord parse db p).Level = p.Level ∧
    (p.SteamId = "" → (mergedRecord parse db p).SteamId = existing.SteamId) ∧
    (p.SteamId ≠ "" → (mergedRecord parse db p).SteamId = p.SteamId) := by
  unfold mergedRecord
  rw [hex]
  refine ⟨?_, ?_, ?_, ?_, ?_, ?_, ?_, ?_⟩ <;>
    · dsimp only
      (repeat' split) <;> simp_all

theorem txPutAll_ok (parse : String → Option Nat) (db0 : Bucket Player)
    (ps : List Player) (st st' : TxState)
    (h : txPutAll parse db0 ps st = Except.ok st') :
    st'.bucket = putAll parse db0 ps st.bucket := by
  induction ps generalizing st with
  | nil =>
      rw [txPutAll] at h
      cases h
      rfl
  | cons p rest ih =>
      rw [txPutAll] at h
      unfold txPut at h
      cases hfu : st.fuel with
      | zero =>
          rw [hfu] at h
          simp at h
      | succ n =>
          rw [hfu] at h
          simp only [] at h
          rw [putAll]
          exact ih _ h

theorem txDeleteStale_ok (newUids olds : List String) (st st' : TxState)
    (h : txDeleteStale newUids olds st = Except.ok st') :
    st'.bucket = deleteStale newUids olds st.bucket := by
  induction olds generalizing st with
  | nil =>
      rw [txDeleteStale] at h
      cases h
      rfl
  | cons uid rest ih =>
      rw [txDeleteStale] at h
      rw [deleteStale]
      by_cases hc : newUids.contains uid = true
      · rw [if_pos hc] at h
        rw [if_pos hc]
        exact ih _ h
      · rw [if_neg hc] at h
        rw [if_neg hc]
        unfold txDelete at h
        cases hfu : st.fuel with
        | zero =>
            rw [hfu] at h
            simp at h
        | succ n =>
            rw [hfu] at h
            simp only [] at h
            exact ih _ h

theorem putPlayersBody_ok (parse : String → Option Nat) (ps : List Player)
    (st0 st' : TxState) (h : putPlayersBody parse ps st0 = Except.ok st') :
    st'.bucket =
      deleteStale (ps.map Player.PlayerUid) (st0.bucket.map (fun kv => kv.2.PlayerUid))
        (putAll parse st0.bucket ps st0.bucket) := by
  unfold putPlayersBody at h
  cases hput : txPutAll parse st0.bucket ps st0 with
  | error e =>
      rw [hput] at h
      cases h
  | ok st1 =>
      rw [hput] at h
      simp only [] at h
      rw [txDeleteStale_ok _ _ _ _ h, txPutAll_ok _ _ _ _ _ hput]

theorem removeWhitelist_some_eq (b : Bucket PlayerW) (p : PlayerW) :
    removeWhitelist (some b) p =
      match findPlayerKey b p with
      | none => Except.error DbErr.notFound
      | some key => Except.ok (bucketDelete b key) := rfl

theorem addWhitelist_eq (db : Option (Bucket PlayerW)) (player : PlayerW) :
    addWhitelist db player =
      match findPlayerKey (db.getD []) player with
      | some key => bucketPut (db.getD []) key player
      | none =>
          bucketPut (db.getD [])
            (player.Name ++ "|" ++ player.SteamID ++ "|" ++ player.PlayerUID) player := rfl

/-! ### Claim theorems -/

/-- C1: ReplaceRoster (PutPlayers) is a full synchronization: for every
prior persisted state (whose records are keyed by their `player_uid`, as
all persisted states are) and every incoming roster, the key set of the
resulting players collection equals exactly the incoming snapshots'
`player_uid` set. -/
theorem C1_replaceRoster_full_sync (parse : String → Option Nat) (db : Bucket Player)
    (ps : List Player) (hkey : ∀ kv ∈ db, kv.1 = kv.2.PlayerUid) (k : String) :
    k ∈ bucketKeys (putPlayers parse db ps) ↔ k ∈ ps.map Player.PlayerUid := by
  unfold putPlayers
  rw [mem_bucketKeys_deleteStale, mem_bucketKeys_putAll, bucketKeys_eq_uidMap db hkey]
  by_cases h1 : k ∈ ps.map Player.PlayerUid <;> by_cases h2 : k ∈ bucketKeys db <;>
    simp [h1, h2]

/-- C1 witness: a concrete roster replace, where the old record "A" is gone
and the new record "C" is present. -/
theorem C1_witness :
    ("C" ∈ bucketKeys (putPlayers (fun _ => none)
        [("A", ⟨"A", "sA", "nA", "", 0, 0, 0, 0, 0, ""⟩)]
        [⟨"C", "sC", "nC", "", 0, 0, 0, 0, 0, ""⟩]) ↔
      "C" ∈ ([⟨"C", "sC", "nC", "", 0, 0, 0, 0, 0, ""⟩] : List Player).map Player.PlayerUid) ∧
    ("A" ∈ bucketKeys (putPlayers (fun _ => none)
        [("A", ⟨"A", "sA", "nA", "", 0, 0, 0, 0, 0, ""⟩)]
        [⟨"C", "sC", "nC", "", 0, 0, 0, 0, 0, ""⟩]) ↔
      "A" ∈ ([⟨"C", "sC", "nC", "", 0, 0, 0, 0, 0, ""⟩] : List Player).map Player.PlayerUid) := by
  exact ⟨C1_replaceRoster_full_sync (fun _ => none) _ _ (by decide) "C",
    C1_replaceRoster_full_sync (fun _ => none) _ _ (by decide) "A"⟩

/-- C2 counterexample: the claim's "resolved" example steam id
"76561100000002" itself contains the placeholder run "000000", so
PutPlayersOnline does overwrite it with the snapshot's different steam id
instead of leaving it unchanged. -/
theorem C2_counterexample_placeholder_overwritten :
    bucketGet (putPlayersOnline 7
        [("U", ⟨"U", "76561100000002", "n", "", 0, 0, 0, 0, 0, ""⟩)]
        [⟨"U", "76561198999999", "n2", "ip", 1, 2, 3, 4⟩]) "U" =
      some ⟨"U", "76561198999999", "n", "ip", 1, 2, 3, 4, 7, ""⟩ ∧
    ("76561198999999" : String) ≠ "76561100000002" := by
  exact ⟨by decide, by decide⟩

/-- C2 (amended): in PutPlayersOnline, for an existing record the stored
steam id is overwritten by the snapshot's exactly when the stored one is
empty or contains the zero-placeholder run "000000"; the placeholder
"76500000000001" is overwritten, while a resolved id without the run, such
as "76561198123456", stays unchanged (the spec's example "76561100000002"
contains the run and is therefore itself overwritten). -/
theorem C2_amended_steamId_upgrade (now : Nat) (db : Bucket Player) (p : OnlinePlayer)
    (existing : Player) (hex : bucketGet db p.PlayerUid = some existing) :
    ∃ r, bucketGet (putPlayersOnline now db [p]) p.PlayerUid = some r ∧
      r.SteamId =
        if existing.SteamId = "" ∨ strContains existing.SteamId "000000" = true
        then p.SteamId else existing.SteamId := by
  refine ⟨onlineMerged now db p, ?_, ?_⟩
  · rw [putPlayersOnline, putOnlineAll, putOnlineAll]
    exact bucketGet_put_self _ _ _
  · unfold onlineMerged
    rw [hex]
    dsimp only
    split <;> simp_all

/-- C2 witness: the placeholder "76500000000001" is upgraded to the
snapshot's id, and the resolved "76561198123456" survives a snapshot
carrying a different id. -/
theorem C2_witness :
    (∃ r, bucketGet (putPlayersOnline 7
        [("U", ⟨"U", "76500000000001", "n", "", 0, 0, 0, 0, 0, ""⟩)]
        [⟨"U", "76561198123456", "n2", "ip", 1, 2, 3, 4⟩]) "U" = some r ∧
      r.SteamId = "76561198123456") ∧
    (∃ r, bucketGet (putPlayersOnline 7
        [("V", ⟨"V", "76561198123456", "n", "", 0, 0, 0, 0, 0, ""⟩)]
        [⟨"V", "76561197123456", "n2", "ip", 1, 2, 3, 4⟩]) "V" = some r ∧
      r.SteamId = "76561198123456") := by
  constructor
  · have h := C2_amended_steamId_upgrade 7
      [("U", ⟨"U", "76500000000001", "n", "", 0, 0, 0, 0, 0, ""⟩)]
      ⟨"U", "76561198123456", "n2", "ip", 1, 2, 3, 4⟩
      ⟨"U", "76500000000001", "n", "", 0, 0, 0, 0, 0, ""⟩ (by decide)
    rwa [if_pos (by decide)] at h
  · have h := C2_amended_steamId_upgrade 7
      [("V", ⟨"V", "76561198123456", "n", "", 0, 0, 0, 0, 0, ""⟩)]
      ⟨"V", "76561197123456", "n2", "ip", 1, 2, 3, 4⟩
      ⟨"V", "76561198123456", "n", "", 0, 0, 0, 0, 0, ""⟩ (by decide)
    rwa [if_neg (by decide)] at h

/-- C3: in ReplaceRoster, an incoming snapshot whose uid already has a
persisted record is merged so that `ip`, `ping`, `location_x`, `location_y`
come from the existing record, the existing steam id survives when the
incoming one is empty (and the incoming one wins otherwise), while
`nickname` and `level` come from the incoming snapshot; the merged record
is what ends up stored under that uid. -/
theorem C3_roster_merge_field_precedence (parse : String → Option Nat)
    (db : Bucket Player) (ps : List Player) (p existing : Player)
    (hnd : (ps.map Player.PlayerUid).Nodup) (hp : p ∈ ps)
    (hex : existingByUid db p.PlayerUid = some existing) :
    bucketGet (putPlayers parse db ps) p.PlayerUid = some (mergedRecord parse db p) ∧
    (mergedRecord parse db p).Ip = existing.Ip ∧
    (mergedRecord parse db p).Ping = existing.Ping ∧
    (mergedRecord parse db p).LocationX = existing.LocationX ∧
    (mergedRecord parse db p).LocationY = existing.LocationY ∧
    (mergedRecord parse db p).Nickname = p.Nickname ∧
    (mergedRecord parse db p).Level = p.Level ∧
    (p.SteamId = "" → (mergedRecord parse db p).SteamId = existing.SteamId) ∧
    (p.SteamId ≠ "" → (mergedRecord parse db p).SteamId = p.SteamId) := by
  constructor
  · unfold putPlayers
    rw [bucketGet_deleteStale]
    have hmem : p.PlayerUid ∈ ps.map Player.PlayerUid := List.mem_map_of_mem _ hp
    rw [if_neg (by simp [hmem])]
    exact putAll_get_of_nodup parse db ps db p hnd hp
  · exact mergedRecord_fields parse db p existing hex

/-- C3 witness: a concrete merge where the stored ip "1.1.1.1" survives the
roster replace and the incoming nickname wins. -/
theorem C3_witness :
    bucketGet (putPlayers (fun _ => none)
        [("A", ⟨"A", "sA", "nOld", "1.1.1.1", 9, 8, 7, 6, 5, ""⟩)]
        [⟨"A", "", "nNew", "2.2.2.2", 0, 0, 0, 3, 0, ""⟩]) "A" =
      some (mergedRecord (fun _ => none)
        [("A", ⟨"A", "sA", "nOld", "1.1.1.1", 9, 8, 7, 6, 5, ""⟩)]
        ⟨"A", "", "nNew", "2.2.2.2", 0, 0, 0, 3, 0, ""⟩) ∧
    (mergedRecord (fun _ => none)
        [("A", ⟨"A", "sA", "nOld", "1.1.1.1", 9, 8, 7, 6, 5, ""⟩)]
        ⟨"A", "", "nNew", "2.2.2.2", 0, 0, 0, 3, 0, ""⟩).Ip = "1.1.1.1" ∧
    (mergedRecord (fun _ => none)
        [("A", ⟨"A", "sA", "nOld", "1.1.1.1", 9, 8, 7, 6, 5, ""⟩)]
        ⟨"A", "", "nNew", "2.2.2.2", 0, 0, 0, 3, 0, ""⟩).Nickname = "nNew" := by
  have h := C3_roster_merge_field_precedence (fun _ => none)
    [("A", ⟨"A", "sA", "nOld", "1.1.1.1", 9, 8, 7, 6, 5, ""⟩)]
    [⟨"A", "", "nNew", "2.2.2.2", 0, 0, 0, 3, 0, ""⟩]
    ⟨"A", "", "nNew", "2.2.2.2", 0, 0, 0, 3, 0, ""⟩
    ⟨"A", "sA", "nOld", "1.1.1.1", 9, 8, 7, 6, 5, ""⟩
    (by decide) (by decide) (by decide)
  exact ⟨h.1, h.2.1, h.2.2.2.2.2.1⟩

/-- C4: AddWhitelist with an entry that OR-matches a stored entry updates
that stored entry in place — the key set is unchanged (no second entry is
created) and the matched key now stores the new value. -/
theorem C4_whitelist_or_match_updates_in_place (b : Bucket PlayerW) (entry : PlayerW)
    (k : String) (hfind : findPlayerKey b entry = some k) :
    bucketKeys (addWhitelist (some b) entry) = bucketKeys b ∧
    bucketGet (addWhitelist (some b) entry) k = some entry := by
  obtain ⟨v, hv, _⟩ := findPlayerKey_some b entry k hfind
  have hmem : k ∈ bucketKeys b := mem_bucketKeys_of_mem b k v hv
  unfold addWhitelist
  simp only [Option.getD_some]
  rw [hfind]
  exact ⟨bucketKeys_put_of_mem b k entry hmem, bucketGet_put_self b k entry⟩

/-- C4 witness: the claim's concrete scenario — stored `{name:"X"}` entry,
update with `{name:"X", steam_id:"S1"}`: same single key, value now carries
"S1". -/
theorem C4_witness :
    bucketKeys (addWhitelist (some [("X||", ⟨"X", "", ""⟩)]) ⟨"X", "S1", ""⟩) = ["X||"] ∧
    bucketGet (addWhitelist (some [("X||", ⟨"X", "", ""⟩)]) ⟨"X", "S1", ""⟩) "X||" =
      some ⟨"X", "S1", ""⟩ := by
  have h := C4_whitelist_or_match_updates_in_place
    [("X||", ⟨"X", "", ""⟩)] ⟨"X", "S1", ""⟩ "X||" (by decide)
  exact ⟨h.1.trans (by decide), h.2⟩

/-- C5: ReplaceWhitelist clears the previous contents and stores each given
entry under its `player_uid` when non-empty, else its `steam_id` when
non-empty (this is `whitelistKey`), silently skipping entries with neither
identifier; in particular a name-only entry yields an empty whitelist. -/
theorem C5_replaceWhitelist_semantics (db : Option (Bucket PlayerW)) (ps : List PlayerW) :
    (∀ k e, (k, e) ∈ putWhitelist db ps → ∃ p ∈ ps, e = p ∧ whitelistKey p = some k) ∧
    (∀ k, k ∈ bucketKeys (putWhitelist db ps) ↔ ∃ p ∈ ps, whitelistKey p = some k) ∧
    (∀ p ∈ ps, whitelistKey p = none → ∀ k, (k, p) ∉ putWhitelist db ps) ∧
    putWhitelist db [⟨"Y", "", ""⟩] = [] := by
  refine ⟨?_, ?_, ?_, rfl⟩
  · intro k e h
    rcases mem_putWhitelistAll_elim ps [] (k, e) h with h1 | ⟨p, hp, h2, h3⟩
    · cases h1
    · exact ⟨p, hp, h2, h3⟩
  · intro k
    rw [putWhitelist, mem_bucketKeys_putWhitelistAll]
    simp [bucketKeys]
  · intro p hp hw k hk
    rcases mem_putWhitelistAll_elim ps [] (k, p) hk with h1 | ⟨q, hq, h2, h3⟩
    · cases h1
    · rw [show (k, p).2 = p from rfl] at h2
      rw [← h2] at h3
      rw [hw] at h3
      cases h3

/-- C5 witness: an entry with a uid ends up stored under that uid after a
bulk replace. -/
theorem C5_witness :
    "U1" ∈ bucketKeys (putWhitelist none [(⟨"N1", "S1", "U1"⟩ : PlayerW)]) := by
  exact ((C5_replaceWhitelist_semantics none [⟨"N1", "S1", "U1"⟩]).2.1 "U1").mpr
    ⟨⟨"N1", "S1", "U1"⟩, by simp, by decide⟩

/-- C6: every element of the ListPlayers output stems from a record whose
key does not contain the placeholder run (placeholder-keyed records never
appear), GetPlayer returns any stored record by exact key (placeholder or
not), and GetPlayer fails with NotFound exactly when no record exists for
the key. -/
theorem C6_listing_excludes_placeholder (db : Bucket Player) :
    (∀ t ∈ listPlayers db,
      ∃ kv, kv ∈ db ∧ strContains kv.1 "000000" = false ∧ t = toTerse kv.2) ∧
    (∀ k p, bucketGet db k = some p → getPlayer db k = Except.ok p) ∧
    (∀ k, getPlayer db k = Except.error DbErr.notFound ↔ bucketGet db k = none) := by
  refine ⟨fun t ht => listPlayers_sound db t ht, ?_, ?_⟩
  · intro k p h
    unfold getPlayer
    rw [h]
  · intro k
    unfold getPlayer
    cases hg : bucketGet db k <;> simp

/-- C6 witness: with a placeholder-keyed record "000000A" and a normal
record "B", the listing element comes from a non-placeholder entry, the
placeholder record is still returned by exact-key GetPlayer, and a missing
key "Z" reports NotFound. -/
theorem C6_witness :
    (∃ kv, kv ∈ ([("000000A", ⟨"000000A", "s", "n", "", 0, 0, 0, 0, 0, ""⟩),
        ("B", ⟨"B", "sB", "nB", "", 0, 0, 0, 1, 2, ""⟩)] : Bucket Player) ∧
      strContains kv.1 "000000" = false ∧
      toTerse ⟨"B", "sB", "nB", "", 0, 0, 0, 1, 2, ""⟩ = toTerse kv.2) ∧
    getPlayer [("000000A", ⟨"000000A", "s", "n", "", 0, 0, 0, 0, 0, ""⟩),
        ("B", ⟨"B", "sB", "nB", "", 0, 0, 0, 1, 2, ""⟩)] "000000A" =
      Except.ok ⟨"000000A", "s", "n", "", 0, 0, 0, 0, 0, ""⟩ ∧
    (getPlayer [("000000A", ⟨"000000A", "s", "n", "", 0, 0, 0, 0, 0, ""⟩),
        ("B", ⟨"B", "sB", "nB", "", 0, 0, 0, 1, 2, ""⟩)] "Z" =
        Except.error DbErr.notFound ↔
      bucketGet ([("000000A", ⟨"000000A", "s", "n", "", 0, 0, 0, 0, 0, ""⟩),
        ("B", ⟨"B", "sB", "nB", "", 0, 0, 0, 1, 2, ""⟩)] : Bucket Player) "Z" = none) := by
  have h := C6_listing_excludes_placeholder
    [("000000A", ⟨"000000A", "s", "n", "", 0, 0, 0, 0, 0, ""⟩),
     ("B", ⟨"B", "sB", "nB", "", 0, 0, 0, 1, 2, ""⟩)]
  exact ⟨h.1 (toTerse ⟨"B", "sB", "nB", "", 0, 0, 0, 1, 2, ""⟩) (by decide),
    h.2.1 "000000A" ⟨"000000A", "s", "n", "", 0, 0, 0, 0, 0, ""⟩ (by decide),
    h.2.2 "Z"⟩

/-- C7: ReplaceRoster is atomic — when the transaction body fails at any
point (modelled by fuel exhaustion of the fallible store), the visible
state is exactly the pre-call bucket, and in general the visible state is
either the untouched pre-call bucket or the fully applied result, never a
partially applied one. -/
theorem C7_replaceRoster_atomic (parse : String → Option Nat) (fuel : Nat)
    (db : Bucket Player) (ps : List Player) :
    ((∃ e, putPlayersBody parse ps ⟨db, fuel⟩ = Except.error e) →
      putPlayersAtomic parse fuel db ps = db) ∧
    (putPlayersAtomic parse fuel db ps = db ∨
      putPlayersAtomic parse fuel db ps = putPlayers parse db ps) := by
  constructor
  · rintro ⟨e, he⟩
    unfold putPlayersAtomic
    rw [he]
  · unfold putPlayersAtomic
    cases hb : putPlayersBody parse ps ⟨db, fuel⟩ with
    | error e => exact Or.inl rfl
    | ok st =>
        refine Or.inr ?_
        show st.bucket = putPlayers parse db ps
        rw [putPlayersBody_ok parse ps _ _ hb]
        rfl

/-- C7 witness: with fuel for only one write, a two-snapshot roster replace
fails mid-way (after the first write) and the visible state is the
pre-call (empty) bucket. -/
theorem C7_witness :
    (∃ e, putPlayersBody (fun _ => none)
        [⟨"A", "", "", "", 0, 0, 0, 0, 0, ""⟩, ⟨"B", "", "", "", 0, 0, 0, 0, 0, ""⟩]
        ⟨[], 1⟩ = Except.error e) ∧
    putPlayersAtomic (fun _ => none) 1 []
        [⟨"A", "", "", "", 0, 0, 0, 0, 0, ""⟩, ⟨"B", "", "", "", 0, 0, 0, 0, 0, ""⟩] = [] := by
  refine ⟨⟨(), rfl⟩, ?_⟩
  exact (C7_replaceRoster_atomic (fun _ => none) 1 []
    [⟨"A", "", "", "", 0, 0, 0, 0, 0, ""⟩, ⟨"B", "", "", "", 0, 0, 0, 0, 0, ""⟩]).1 ⟨(), rfl⟩

/-- C8: RemoveWhitelist on a never-created collection fails with
BucketMissing while ListWhitelist returns empty without error; on an
existing collection RemoveWhitelist fails with NotFound exactly when no
stored entry matches, and otherwise deletes a matched entry. -/
theorem C8_removeWhitelist_error_modes (p : PlayerW) (b : Bucket PlayerW) :
    removeWhitelist none p = Except.error DbErr.bucketMissing ∧
    listWhitelist none = [] ∧
    (removeWhitelist (some b) p = Except.error DbErr.notFound ↔
      ∀ kv ∈ b, matchesCriteria kv.2 p = false) ∧
    ((∃ kv ∈ b, matchesCriteria kv.2 p = true) →
      ∃ k v, (k, v) ∈ b ∧ matchesCriteria v p = true ∧
        removeWhitelist (some b) p = Except.ok (bucketDelete b k)) := by
  refine ⟨rfl, rfl, ?_, ?_⟩
  · rw [removeWhitelist_some_eq]
    cases hf : findPlayerKey b p with
    | none =>
        exact ⟨fun _ => (findPlayerKey_eq_none_iff b p).mp hf, fun _ => rfl⟩
    | some k =>
        constructor
        · intro h
          exact Except.noConfusion h
        · intro hall
          have hnone := (findPlayerKey_eq_none_iff b p).mpr hall
          rw [hf] at hnone
          exact Option.noConfusion hnone
  · rintro ⟨kv, hkv, hm⟩
    cases hf : findPlayerKey b p with
    | none =>
        have hfalse := (findPlayerKey_eq_none_iff b p).mp hf kv hkv
        rw [hm] at hfalse
        cases hfalse
    | some k =>
        obtain ⟨v, hv, hmv⟩ := findPlayerKey_some b p k hf
        refine ⟨k, v, hv, hmv, ?_⟩
        rw [removeWhitelist_some_eq, hf]

/-- C8 witness: concrete instances of all three removal/listing outcomes. -/
theorem C8_witness :
    removeWhitelist none (⟨"A", "", ""⟩ : PlayerW) = Except.error DbErr.bucketMissing ∧
    (removeWhitelist (some [("B||", ⟨"B", "", ""⟩)]) ⟨"A", "", ""⟩ =
        Except.error DbErr.notFound ↔
      ∀ kv ∈ ([("B||", ⟨"B", "", ""⟩)] : Bucket PlayerW),
        matchesCriteria kv.2 ⟨"A", "", ""⟩ = false) ∧
    (∃ k v, (k, v) ∈ ([("A||", ⟨"A", "", ""⟩)] : Bucket PlayerW) ∧
      matchesCriteria v ⟨"A", "", ""⟩ = true ∧
      removeWhitelist (some [("A||", ⟨"A", "", ""⟩)]) ⟨"A", "", ""⟩ =
        Except.ok (bucketDelete [("A||", ⟨"A", "", ""⟩)] k)) := by
  refine ⟨(C8_removeWhitelist_error_modes ⟨"A", "", ""⟩ []).1,
    (C8_removeWhitelist_error_modes ⟨"A", "", ""⟩ [("B||", ⟨"B", "", ""⟩)]).2.2.1,
    (C8_removeWhitelist_error_modes ⟨"A", "", ""⟩ [("A||", ⟨"A", "", ""⟩)]).2.2.2
      ⟨("A||", ⟨"A", "", ""⟩), by decide, by decide⟩⟩

/-- C9: PutPlayersOnline never deletes a record (any stored key still has a
value afterwards), and any record whose uid is not in the snapshot batch is
left unchanged. -/
theorem C9_online_frame (now : Nat) (db : Bucket Player) (ps : List OnlinePlayer)
    (k : String) :
    (k ∉ ps.map OnlinePlayer.PlayerUid →
      bucketGet (putPlayersOnline now db ps) k = bucketGet db k) ∧
    (∀ v, bucketGet db k = some v → ∃ w, bucketGet (putPlayersOnline now db ps) k = some w) := by
  constructor
  · intro h
    exact putOnlineAll_get_not_mem now ps db k h
  · intro v hv
    have h := putOnlineAll_isSome now ps db k (by simp [hv])
    exact Option.isSome_iff_exists.mp h

/-- C9 witness: a batch that only mentions "B" leaves the stored record "A"
unchanged and present. -/
theorem C9_witness :
    bucketGet (putPlayersOnline 3 [("A", ⟨"A", "s", "n", "", 0, 0, 0, 0, 0, ""⟩)]
        [⟨"B", "sB", "nB", "ip", 1, 2, 3, 4⟩]) "A" =
      bucketGet [("A", ⟨"A", "s", "n", "", 0, 0, 0, 0, 0, ""⟩)] "A" ∧
    (∃ w, bucketGet (putPlayersOnline 3 [("A", ⟨"A", "s", "n", "", 0, 0, 0, 0, 0, ""⟩)]
        [⟨"B", "sB", "nB", "ip", 1, 2, 3, 4⟩]) "A" = some w) := by
  exact ⟨(C9_online_frame 3 [("A", ⟨"A", "s", "n", "", 0, 0, 0, 0, 0, ""⟩)]
      [⟨"B", "sB", "nB", "ip", 1, 2, 3, 4⟩] "A").1 (by decide),
    (C9_online_frame 3 [("A", ⟨"A", "s", "n", "", 0, 0, 0, 0, 0, ""⟩)]
      [⟨"B", "sB", "nB", "ip", 1, 2, 3, 4⟩] "A").2
      ⟨"A", "s", "n", "", 0, 0, 0, 0, 0, ""⟩ (by decide)⟩

/-- C10: an all-empty whitelist entry matches no stored entry under the
identity rule (even an identical all-empty one), so RemoveWhitelist on an
existing collection always reports NotFound for it, and AddWhitelist always
takes the insert path, storing it under the composite key "||". -/
theorem C10_all_empty_entry_never_matches (e : PlayerW) (b : Bucket PlayerW)
    (db : Option (Bucket PlayerW)) :
    matchesCriteria e ⟨"", "", ""⟩ = false ∧
    removeWhitelist (some b) ⟨"", "", ""⟩ = Except.error DbErr.notFound ∧
    findPlayerKey (db.getD []) ⟨"", "", ""⟩ = none ∧
    addWhitelist db ⟨"", "", ""⟩ = bucketPut (db.getD []) "||" ⟨"", "", ""⟩ := by
  have hm : ∀ e' : PlayerW, matchesCriteria e' ⟨"", "", ""⟩ = false := by
    intro e'
    simp [matchesCriteria]
  have hfind : ∀ b' : Bucket PlayerW, findPlayerKey b' ⟨"", "", ""⟩ = none := by
    intro b'
    exact (findPlayerKey_eq_none_iff _ _).mpr (fun kv _ => hm kv.2)
  refine ⟨hm e, ?_, hfind _, ?_⟩
  · rw [removeWhitelist_some_eq, hfind b]
  · rw [addWhitelist_eq, hfind (db.getD [])]
    dsimp only
    rw [show ("" ++ "|" ++ "" ++ "|" ++ "" : String) = "||" from by decide]

end PalworldService
